import Mathlib

/-!
Verification of the polling and request-assembly behaviour of the bioblend
client library.

The repository is a thin HTTP client.  Its one piece of non-trivial control
flow is a bounded poll ("wait until a server-side entity is ready"): fetch a
status snapshot, test a failure predicate, test a success predicate, otherwise
check a wall-clock budget, sleep a fixed interval and retry.  The generic
routine (`await_condition` in the specification) is realised in the repository
partly by the retry loop of `HistoryClient.export_history` (in scope here) and
partly by `_block_until_dataset_ready` (declared and called in
`HistoryClient.download_dataset` but defined outside the files in scope), so
the generic poller is modelled from the specification while the concrete
export-archive loop, the dataset state gate, `get_histories` and
`repository_revisions` are embedded directly from the source.

Time is simulated: each loop iteration advances the clock by the sleep
interval, so the elapsed time checked after the k-th fetch is k·interval.
Loops are embedded with an explicit fuel argument; the distinguished result
`diverge` marks fuel exhaustion, and the top-level entry points are proved to
never produce it, which is the termination content of the claims.
-/

/-- Result of one run of the bounded poller: the three outcomes of the spec
(success snapshot, `EntityFailedState`, `PollTimeout`), the
`ConfigurationError` for a non-positive interval, and `diverge` for fuel
exhaustion (proved unreachable at the chosen fuel).  Each terminal outcome
records the number of fetch calls issued and the number of sleeps taken. -/
inductive PollResult (α : Type) where
  | success (snap : α) (fetches sleeps : Nat)
  | entityFailed (snap : α) (fetches sleeps : Nat)
  | pollTimeout (snap : α) (elapsed : Int) (fetches sleeps : Nat)
  | configError
  | diverge
  deriving DecidableEq, Repr

/-- Modelled from the spec: the loop body of `await_condition` (§4.1), whose
concrete realisation `_block_until_dataset_ready` is not among the source
files in scope.  `k` counts the fetches already performed (equivalently the
sleeps taken), so the snapshot inspected in this iteration is `fetch k`; the
failure predicate is tested first, then the success predicate, then the
budget: the elapsed simulated time after the (k+1)-th fetch is
`(k+1) * interval`, and the poll times out once it exceeds `maxWait`. -/
def awaitAux {α : Type} (fetch : Nat → α) (succ fail : α → Bool)
    (interval maxWait : Int) : Nat → Nat → PollResult α
  | 0, _ => .diverge
  | fuel + 1, k =>
    if fail (fetch k) then .entityFailed (fetch k) (k + 1) k
    else if succ (fetch k) then .success (fetch k) (k + 1) k
    else if maxWait < (k + 1 : Int) * interval then
      .pollTimeout (fetch k) ((k + 1 : Int) * interval) (k + 1) k
    else awaitAux fetch succ fail interval maxWait fuel (k + 1)

/-- Modelled from the spec: `await_condition(fetch_status, is_success,
is_failure, interval_seconds, max_wait_seconds)` (§4.1).  A non-positive
interval is rejected as a configuration error before any fetch; otherwise the
loop runs with fuel `maxWait.toNat + 1`, which is proved sufficient. -/
def await_condition {α : Type} (fetch : Nat → α) (succ fail : α → Bool)
    (interval maxWait : Int) : PollResult α :=
  if interval ≤ 0 then .configError
  else awaitAux fetch succ fail interval maxWait (maxWait.toNat + 1) 0

/-- Number of fetch calls recorded in a poll result (`0` when the poll never
fetched: configuration error or fuel exhaustion). -/
def fetchCount {α : Type} : PollResult α → Nat
  | .success _ f _ => f
  | .entityFailed _ f _ => f
  | .pollTimeout _ _ f _ => f
  | .configError => 0
  | .diverge => 0

/-- Discriminator for the `PollTimeout` outcome. -/
def isPollTimeout {α : Type} : PollResult α → Bool
  | .pollTimeout _ _ _ _ => true
  | _ => false

/-- The index (1-based count) of the fetch after which the budget check first
fails when no predicate ever fires: the least `k ≥ 1` with
`maxWait < k * interval`, in closed form for a positive interval. -/
def timeoutFetches (interval maxWait : Int) : Nat :=
  maxWait.toNat / interval.toNat + 1

/-- Modelled from the spec: the poller loop when the status fetch itself may
raise a transport-level error (§7 propagation policy).  The fetch is not
wrapped in any handler, so an `Except.error` from it is returned as is. -/
def awaitAuxE {α ε : Type} (fetch : Nat → Except ε α) (succ fail : α → Bool)
    (interval maxWait : Int) : Nat → Nat → Except ε (PollResult α)
  | 0, _ => .ok .diverge
  | fuel + 1, k =>
    match fetch k with
    | .error e => .error e
    | .ok snap =>
      if fail snap then .ok (.entityFailed snap (k + 1) k)
      else if succ snap then .ok (.success snap (k + 1) k)
      else if maxWait < (k + 1 : Int) * interval then
        .ok (.pollTimeout snap ((k + 1 : Int) * interval) (k + 1) k)
      else awaitAuxE fetch succ fail interval maxWait fuel (k + 1)

/-- Modelled from the spec: `await_condition` over a fallible status fetch;
transport-level errors from the fetch propagate, uncaught. -/
def awaitConditionE {α ε : Type} (fetch : Nat → Except ε α) (succ fail : α → Bool)
    (interval maxWait : Int) : Except ε (PollResult α) :=
  if interval ≤ 0 then .ok .configError
  else awaitAuxE fetch succ fail interval maxWait (maxWait.toNat + 1) 0

/-! Section: Source embedding: `HistoryClient.export_history` (wait loop)

```python
while True:
    r = Client._put(self, {}, url=url, params=params)
    if not wait or r.status_code == 200:
        break
    time.sleep(1)
contents = r.json()
if contents:
    jeha_id = contents["download_url"].rsplit("/", 1)[-1]
else:
    jeha_id = ""  # export is not ready
return jeha_id
```
-/

/-- One HTTP response observed by the `export_history` loop: its status code
and its JSON body, modelled as an association list of string fields. -/
structure ExportResponse where
  status_code : Nat
  json : List (String × String)
  deriving DecidableEq, Repr

/-- Python `s.rsplit("/", 1)[-1]`: the part of `s` after its last slash, or
`s` itself when it contains none (computed as the longest slash-free suffix). -/
def rsplitSlashLast (s : String) : String :=
  String.mk ((s.data.reverse.takeWhile (fun c => c != '/')).reverse)

/-- The `while True` loop of `export_history`: issue the PUT, break when
`not wait or r.status_code == 200`, else sleep one second and retry.
`responses k` is the response to the (k+1)-th request; the result records the
response the loop broke on, the number of requests issued and the number of
sleeps.  `none` models the loop still running when the fuel is exhausted
(the source loop is unbounded). -/
def exportPoll (responses : Nat → ExportResponse) (wait : Bool) :
    Nat → Nat → Option (ExportResponse × Nat × Nat)
  | 0, _ => none
  | fuel + 1, k =>
    if !wait || (responses k).status_code == 200 then some (responses k, k + 1, k)
    else exportPoll responses wait fuel (k + 1)

/-- The jeha-id extraction after the loop: an empty JSON body (falsy
`contents`) yields the empty id; otherwise the id is the last slash-component
of the `download_url` field, and a missing field raises `KeyError` exactly as
the subscript does in the source. -/
def jehaOf (r : ExportResponse) : Except String String :=
  if r.json.isEmpty then .ok ""
  else
    match List.lookup "download_url" r.json with
    | some u => .ok (rsplitSlashLast u)
    | none => .error "KeyError"

/-- `export_history` with `wait` set: run the loop, then extract the jeha id
from the response the loop broke on, keeping the fetch and sleep counts. -/
def export_history_wait (responses : Nat → ExportResponse) (wait : Bool)
    (fuel : Nat) : Option (Except String String × Nat × Nat) :=
  match exportPoll responses wait fuel 0 with
  | none => none
  | some (r, f, s) => some (jehaOf r, f, s)

/-! Section: Source embedding: `HistoryClient.download_dataset` state gate

```python
dataset = self.show_dataset(history_id, dataset_id)
if not dataset["state"] == "ok":
    raise DatasetStateException("Dataset not ready. Dataset id: %s, current state: %s" % (dataset_id, dataset["state"]))
```
-/

/-- Outcome of the dataset state gate in `download_dataset`: either the
download proceeds or a `DatasetStateException` carrying the observed state is
raised. -/
inductive DatasetGate where
  | proceed
  | stateException (state : String)
  deriving DecidableEq, Repr

/-- The `download_dataset` guard: raise `DatasetStateException` whenever the
`state` field of the dataset differs from `"ok"`, else proceed. -/
def download_dataset_check (state : String) : DatasetGate :=
  if !(state == "ok") then .stateException state else .proceed

/-! Section: Source embedding: `HistoryClient.get_histories` -/

/-- The two fields of a history record that `get_histories` inspects. -/
structure HistoryRecord where
  id : String
  name : String
  deriving DecidableEq, Repr

/-- `get_histories(history_id, name, deleted)`: raise `ValueError` when both
filters are given, else fetch the history list (`fetch deleted` stands for
`Client._get(self, deleted=deleted)`) and post-filter it: by id (first match,
as a singleton list, or empty), else by name (all matches), else return all. -/
def get_histories (fetch : Bool → List HistoryRecord)
    (history_id name : Option String) (deleted : Bool) :
    Except String (List HistoryRecord) :=
  if history_id.isSome && name.isSome then
    .error "Provide only one argument between name or history_id, but not both"
  else
    let histories := fetch deleted
    match history_id with
    | some hid =>
      match histories.find? (fun h => h.id == hid) with
      | some h => .ok [h]
      | none => .ok []
    | none =>
      match name with
      | some nm => .ok (histories.filter (fun h => h.name == nm))
      | none => .ok histories

/-! Section: Source embedding: `ToolShedClient.repository_revisions` -/

/-- Python truthiness of an optional boolean argument: `None` and `False` are
falsy, `True` is truthy. -/
def truthy : Option Bool → Bool
  | some b => b
  | none => false

/-- One `if arg: params[key] = "True"` line of `repository_revisions`,
prepending the pair when the argument is truthy. -/
def addIf (c : Option Bool) (key : String) (rest : List (String × String)) :
    List (String × String) :=
  if truthy c then (key, "True") :: rest else rest

/-- The query-parameter dictionary assembled by `repository_revisions`: one
`(name, "True")` entry per truthy filter argument, in source order. -/
def repository_revisions_params (downloadable malicious tools_functionally_correct
    missing_test_components do_not_test includes_tools test_install_error
    skip_tool_test : Option Bool) : List (String × String) :=
  addIf downloadable "downloadable"
    (addIf malicious "malicious"
      (addIf tools_functionally_correct "tools_functionally_correct"
        (addIf missing_test_components "missing_test_components"
          (addIf do_not_test "do_not_test"
            (addIf includes_tools "includes_tools"
              (addIf test_install_error "test_install_error"
                (addIf skip_tool_test "skip_tool_test" [])))))))

example : await_condition (fun _ => (0 : Nat)) (fun _ => false) (fun _ => false) 1 2 =
    .pollTimeout 0 3 3 2 := by decide

example : await_condition (fun i => i) (fun x => x == 2) (fun _ => false) 1 10 =
    .success 2 3 2 := by decide

example : await_condition (fun i => i) (fun x => x == 1) (fun _ => false) 1 0 =
    .pollTimeout 0 1 1 0 := by decide

example : rsplitSlashLast "a/b/jeha123" = "jeha123" := by decide

example : rsplitSlashLast "nobar" = "nobar" := by decide

/-! Section: Helper lemmas about the timeout index -/

/-- For a positive interval, the budget check fails after `timeoutFetches`
fetches: the simulated elapsed time then strictly exceeds the budget. -/
theorem timeoutFetches_spec (interval maxWait : Int) (hint : 0 < interval) :
    maxWait < (timeoutFetches interval maxWait : Int) * interval := by
  unfold timeoutFetches
  rcases le_or_lt 0 maxWait with hmw | hmw
  · have hI : 0 < interval.toNat := by omega
    have hM : (maxWait.toNat : Int) = maxWait := Int.toNat_of_nonneg hmw
    have hIc : (interval.toNat : Int) = interval := Int.toNat_of_nonneg hint.le
    have key : maxWait.toNat < (maxWait.toNat / interval.toNat + 1) * interval.toNat := by
      have h2 : maxWait.toNat % interval.toNat < interval.toNat := Nat.mod_lt _ hI
      calc maxWait.toNat
          = interval.toNat * (maxWait.toNat / interval.toNat) + maxWait.toNat % interval.toNat :=
            (Nat.div_add_mod _ _).symm
        _ < interval.toNat * (maxWait.toNat / interval.toNat) + interval.toNat :=
            Nat.add_lt_add_left h2 _
        _ = (maxWait.toNat / interval.toNat + 1) * interval.toNat := by ring
    calc maxWait = (maxWait.toNat : Int) := hM.symm
      _ < ((maxWait.toNat / interval.toNat + 1 : Nat) : Int) * (interval.toNat : Int) := by
            exact_mod_cast key
      _ = ((maxWait.toNat / interval.toNat + 1 : Nat) : Int) * interval := by rw [hIc]
  · have h1 : maxWait.toNat = 0 := by omega
    rw [h1]
    simp only [Nat.zero_div, Nat.cast_ofNat, Nat.zero_add, Nat.cast_one, one_mul]
    omega

/-- Minimality of `timeoutFetches`: after any earlier (positive) number of
fetches the elapsed time is still within budget. -/
theorem timeoutFetches_min (interval maxWait : Int) (hint : 0 < interval)
    (m : Nat) (hm : 0 < m) (hlt : m < timeoutFetches interval maxWait) :
    (m : Int) * interval ≤ maxWait := by
  unfold timeoutFetches at hlt
  have hle : m ≤ maxWait.toNat / interval.toNat := by omega
  have h3 : m * interval.toNat ≤ maxWait.toNat :=
    le_trans (Nat.mul_le_mul_right _ hle) (Nat.div_mul_le_self _ _)
  rcases le_or_lt 0 maxWait with hmw | hmw
  · have hM : (maxWait.toNat : Int) = maxWait := Int.toNat_of_nonneg hmw
    have hIc : (interval.toNat : Int) = interval := Int.toNat_of_nonneg hint.le
    calc (m : Int) * interval = ((m * interval.toNat : Nat) : Int) := by push_cast [hIc]; ring
      _ ≤ (maxWait.toNat : Int) := by exact_mod_cast h3
      _ = maxWait := hM
  · exfalso
    have h0 : maxWait.toNat = 0 := by omega
    rw [h0, Nat.zero_div] at hle
    omega

/-- `timeoutFetches` fits inside the fuel `maxWait.toNat + 1` used by
`await_condition`. -/
theorem timeoutFetches_le (interval maxWait : Int) :
    timeoutFetches interval maxWait ≤ maxWait.toNat + 1 := by
  unfold timeoutFetches
  have := Nat.div_le_self maxWait.toNat interval.toNat
  omega

/-- When neither predicate ever fires, the loop from any in-budget position
reaches the timeout exactly at `timeoutFetches` fetches. -/
theorem awaitAux_none_eq {α : Type} (fetch : Nat → α) (succ fail : α → Bool)
    (interval maxWait : Int) (hint : 0 < interval)
    (hnone : ∀ i, succ (fetch i) = false ∧ fail (fetch i) = false) :
    ∀ fuel k, k < timeoutFetches interval maxWait →
      timeoutFetches interval maxWait ≤ fuel + k →
      awaitAux fetch succ fail interval maxWait fuel k =
        .pollTimeout (fetch (timeoutFetches interval maxWait - 1))
          ((timeoutFetches interval maxWait : Int) * interval)
          (timeoutFetches interval maxWait)
          (timeoutFetches interval maxWait - 1) := by
  intro fuel
  induction fuel with
  | zero => intro k hk hle; omega
  | succ fuel ih =>
    intro k hk hle
    have h1 : fail (fetch k) = false := (hnone k).2
    have h2 : succ (fetch k) = false := (hnone k).1
    rcases Nat.lt_or_ge (k + 1) (timeoutFetches interval maxWait) with hlt | hge
    · have hle2 : ((k : Int) + 1) * interval ≤ maxWait := by
        have h := timeoutFetches_min interval maxWait hint (k + 1) (by omega) hlt
        push_cast at h
        exact h
      rw [show awaitAux fetch succ fail interval maxWait (fuel + 1) k =
          awaitAux fetch succ fail interval maxWait fuel (k + 1) from by
        simp [awaitAux, h1, h2, not_lt.mpr hle2]]
      exact ih (k + 1) hlt (by omega)
    · have hkN : k + 1 = timeoutFetches interval maxWait := by omega
      have htime : maxWait < ((k : Int) + 1) * interval := by
        have h := timeoutFetches_spec interval maxWait hint
        rw [← hkN] at h
        push_cast at h
        exact h
      simp only [awaitAux, h1, h2, Bool.false_eq_true, if_false, if_pos htime]
      rw [← hkN]
      simp only [Nat.add_sub_cancel]
      push_cast
      rfl

/-- C1: for every status sequence on which neither the success nor the
failure predicate ever holds, the bounded poll (with a positive interval)
returns `PollTimeout` exactly after the fetch that pushes the simulated
elapsed time over `max_wait_seconds`: the number of fetches is
`timeoutFetches`, whose elapsed time strictly exceeds the budget while the
elapsed time of the previous fetch (when there is one) is still within it, so the
poll neither times out after fewer fetches nor loops unboundedly. -/
theorem await_condition_timeout {α : Type} (fetch : Nat → α) (succ fail : α → Bool)
    (interval maxWait : Int) (hint : 0 < interval)
    (hnone : ∀ i, succ (fetch i) = false ∧ fail (fetch i) = false) :
    await_condition fetch succ fail interval maxWait =
      .pollTimeout (fetch (timeoutFetches interval maxWait - 1))
        ((timeoutFetches interval maxWait : Int) * interval)
        (timeoutFetches interval maxWait)
        (timeoutFetches interval maxWait - 1) ∧
    maxWait < (timeoutFetches interval maxWait : Int) * interval ∧
    (timeoutFetches interval maxWait = 1 ∨
      ((timeoutFetches interval maxWait : Int) - 1) * interval ≤ maxWait) := by
  refine ⟨?_, timeoutFetches_spec interval maxWait hint, ?_⟩
  · unfold await_condition
    rw [if_neg (not_le.mpr hint)]
    apply awaitAux_none_eq fetch succ fail interval maxWait hint hnone
    · exact Nat.succ_le_succ (Nat.zero_le _)
    · have := timeoutFetches_le interval maxWait
      omega
  · have hpos : 1 ≤ timeoutFetches interval maxWait := Nat.le_add_left 1 _
    rcases Nat.eq_or_lt_of_le hpos with h1 | h1
    · exact Or.inl h1.symm
    · refine Or.inr ?_
      have hm := timeoutFetches_min interval maxWait hint
        (timeoutFetches interval maxWait - 1) (by omega) (by omega)
      have hcast : ((timeoutFetches interval maxWait - 1 : Nat) : Int) =
          (timeoutFetches interval maxWait : Int) - 1 := by
        have : 1 ≤ timeoutFetches interval maxWait := by omega
        push_cast [this]
        ring
      rw [hcast] at hm
      exact hm

/-- C1 witness: a concrete never-ready sequence with interval 1 and budget 2
times out after exactly 3 fetches with elapsed time 3. -/
theorem await_condition_timeout_witness :
    await_condition (fun _ => (0 : Nat)) (fun _ => false) (fun _ => false) 1 2 =
      .pollTimeout 0 3 3 2 :=
  (await_condition_timeout (fun _ => (0 : Nat)) (fun _ => false) (fun _ => false) 1 2
    (by decide) (fun _ => ⟨rfl, rfl⟩)).1

/-- With a positive interval the loop never exhausts its fuel when started at
an in-budget position: this is the termination content of the poll. -/
theorem awaitAux_ne_diverge {α : Type} (fetch : Nat → α) (succ fail : α → Bool)
    (interval maxWait : Int) (hint : 0 < interval) :
    ∀ fuel k, maxWait.toNat + 1 ≤ fuel + k →
      (k = 0 ∨ (k : Int) * interval ≤ maxWait) →
      awaitAux fetch succ fail interval maxWait fuel k ≠ .diverge := by
  intro fuel
  induction fuel with
  | zero =>
    intro k hle hk
    exfalso
    rcases hk with rfl | hk
    · omega
    · have h1 : (k : Int) ≤ (k : Int) * interval :=
        le_mul_of_one_le_right (by positivity) (by omega)
      have h2 : (k : Int) ≤ maxWait := le_trans h1 hk
      omega
  | succ fuel ih =>
    intro k hle hk
    by_cases h1 : fail (fetch k) = true
    · simp [awaitAux, h1]
    · by_cases h2 : succ (fetch k) = true
      · simp [awaitAux, h1, h2]
      · by_cases h3 : maxWait < ((k : Int) + 1) * interval
        · simp [awaitAux, h1, h2, h3]
        · rw [show awaitAux fetch succ fail interval maxWait (fuel + 1) k =
              awaitAux fetch succ fail interval maxWait fuel (k + 1) from by
            simp [awaitAux, h1, h2, h3]]
          refine ih (k + 1) (by omega) (Or.inr ?_)
          push_cast
          exact not_lt.mp h3

/-- Whenever the loop does not run out of fuel, the outcome records at least
`k + 1` fetches when started after `k` fetches. -/
theorem awaitAux_fetchCount_ge {α : Type} (fetch : Nat → α) (succ fail : α → Bool)
    (interval maxWait : Int) :
    ∀ fuel k, awaitAux fetch succ fail interval maxWait fuel k ≠ .diverge →
      k + 1 ≤ fetchCount (awaitAux fetch succ fail interval maxWait fuel k) := by
  intro fuel
  induction fuel with
  | zero => intro k h; simp [awaitAux] at h
  | succ fuel ih =>
    intro k h
    by_cases h1 : fail (fetch k) = true
    · simp [awaitAux, h1, fetchCount]
    · by_cases h2 : succ (fetch k) = true
      · simp [awaitAux, h1, h2, fetchCount]
      · by_cases h3 : maxWait < ((k : Int) + 1) * interval
        · simp [awaitAux, h1, h2, h3, fetchCount]
        · have heq : awaitAux fetch succ fail interval maxWait (fuel + 1) k =
              awaitAux fetch succ fail interval maxWait fuel (k + 1) := by
            simp [awaitAux, h1, h2, h3]
          rw [heq] at h ⊢
          have := ih (k + 1) h
          omega

/-- C7: for every `max_wait_seconds`, zero and negative included, a validly
configured poll issues at least one fetch (and it terminates), so the first
budget decision can only happen after a fetch. -/
theorem await_condition_min_fetch {α : Type} (fetch : Nat → α) (succ fail : α → Bool)
    (interval maxWait : Int) (hint : 0 < interval) :
    1 ≤ fetchCount (await_condition fetch succ fail interval maxWait) ∧
    await_condition fetch succ fail interval maxWait ≠ .diverge := by
  unfold await_condition
  rw [if_neg (not_le.mpr hint)]
  have hnd := awaitAux_ne_diverge fetch succ fail interval maxWait hint
    (maxWait.toNat + 1) 0 (by omega) (Or.inl rfl)
  exact ⟨awaitAux_fetchCount_ge fetch succ fail interval maxWait _ 0 hnd, hnd⟩

/-- C7 witness: even a negative budget of −3 still gets one fetch. -/
theorem await_condition_min_fetch_witness :
    1 ≤ fetchCount (await_condition (fun _ => (0 : Nat)) (fun _ => false)
      (fun _ => false) 1 (-3)) ∧
    await_condition (fun _ => (0 : Nat)) (fun _ => false) (fun _ => false) 1 (-3) ≠
      .diverge :=
  await_condition_min_fetch (fun _ => (0 : Nat)) (fun _ => false) (fun _ => false)
    1 (-3) (by decide)

/-- Reaching the first successful fetch: when the success predicate first
holds on the k-th fetch, the failure predicate holds on none of the first k,
and the budget survives the k−1 sleeps, the loop started after `j < k`
fetches returns the k-th snapshot with counts k and k−1. -/
theorem awaitAux_success_eq {α : Type} (fetch : Nat → α) (succ fail : α → Bool)
    (interval maxWait : Int) (hint : 0 < interval) (k : Nat) (hk : 0 < k)
    (hsucc : succ (fetch (k - 1)) = true)
    (hbefore : ∀ i, i < k - 1 → succ (fetch i) = false)
    (hfail : ∀ i, i < k → fail (fetch i) = false)
    (hbudget : ((k : Int) - 1) * interval ≤ maxWait) :
    ∀ fuel j, j < k → k ≤ fuel + j →
      awaitAux fetch succ fail interval maxWait fuel j =
        .success (fetch (k - 1)) k (k - 1) := by
  intro fuel
  induction fuel with
  | zero => intro j h1 h2; omega
  | succ fuel ih =>
    intro j hj hle
    have hf : fail (fetch j) = false := hfail j hj
    by_cases hjk : j = k - 1
    · subst hjk
      have hk1 : k - 1 + 1 = k := by omega
      simp [awaitAux, hf, hsucc, hk1]
    · have hjlt : j < k - 1 := by omega
      have hs : succ (fetch j) = false := hbefore j hjlt
      have hnt : ¬ maxWait < ((j : Int) + 1) * interval := by
        have h1 : ((j : Int) + 1) ≤ (k : Int) - 1 := by omega
        have h2 : ((j : Int) + 1) * interval ≤ ((k : Int) - 1) * interval :=
          mul_le_mul_of_nonneg_right h1 (by omega)
        exact not_lt.mpr (le_trans h2 hbudget)
      rw [show awaitAux fetch succ fail interval maxWait (fuel + 1) j =
          awaitAux fetch succ fail interval maxWait fuel (j + 1) from by
        simp [awaitAux, hf, hs, hnt]]
      exact ih (j + 1) (by omega) (by omega)

/-- C2 (amended): for every sequence on which the success predicate first
holds on the k-th fetch, provided the interval is positive, the failure
predicate holds on none of the first k snapshots, and the budget is not
exhausted earlier (`(k − 1) · interval ≤ max_wait_seconds`), the poll returns
the k-th snapshot after exactly k fetches and k − 1 sleeps. -/
theorem await_condition_success {α : Type} (fetch : Nat → α) (succ fail : α → Bool)
    (interval maxWait : Int) (k : Nat)
    (hint : 0 < interval) (hk : 0 < k)
    (hsucc : succ (fetch (k - 1)) = true)
    (hbefore : ∀ i, i < k - 1 → succ (fetch i) = false)
    (hfail : ∀ i, i < k → fail (fetch i) = false)
    (hbudget : ((k : Int) - 1) * interval ≤ maxWait) :
    await_condition fetch succ fail interval maxWait =
      .success (fetch (k - 1)) k (k - 1) := by
  unfold await_condition
  rw [if_neg (not_le.mpr hint)]
  apply awaitAux_success_eq fetch succ fail interval maxWait hint k hk hsucc hbefore hfail
    hbudget (maxWait.toNat + 1) 0 hk
  have h1 : ((k : Int) - 1) ≤ ((k : Int) - 1) * interval :=
    le_mul_of_one_le_right (by omega) (by omega)
  have h2 : ((k : Int) - 1) ≤ maxWait := le_trans h1 hbudget
  omega

/-- C2 counterexample: with success first holding on the second fetch, the
failure predicate never holding, interval 1 and budget 0, the poll does not
return the second snapshot after two fetches — it times out after one.  This
refutes the claim as stated (it omits that the budget must survive the
intermediate sleeps). -/
theorem await_condition_success_counterexample :
    ((fun x => x == 1) ((fun i : Nat => i) 0) = false) ∧
    ((fun x => x == 1) ((fun i : Nat => i) 1) = true) ∧
    await_condition (fun i : Nat => i) (fun x => x == 1) (fun _ => false) 1 0 =
      .pollTimeout 0 1 1 0 ∧
    await_condition (fun i : Nat => i) (fun x => x == 1) (fun _ => false) 1 0 ≠
      .success 1 2 1 := by decide

/-- C2 witness: the scenario of §8 — snapshots queued, running, ok with
success on the third fetch, interval 1, budget 10 — returns the third
snapshot after 3 fetches and 2 sleeps. -/
theorem await_condition_success_witness :
    await_condition (fun i => if i == 0 then "queued" else if i == 1 then "running" else "ok")
      (fun s => s == "ok") (fun _ => false) 1 10 = .success "ok" 3 2 := by
  have h := await_condition_success
    (fun i => if i == 0 then "queued" else if i == 1 then "running" else "ok")
    (fun s => s == "ok") (fun _ => false) 1 10 3
    (by decide) (by decide) (by decide) (by decide) (fun i _ => rfl) (by decide)
  exact h

/-- C3: when the failure predicate holds on the very first snapshot, a
validly configured poll raises the entity-failed outcome carrying that
snapshot after exactly one fetch and zero sleeps, and that outcome is an
error kind distinct from `PollTimeout`. -/
theorem await_condition_entity_failed {α : Type} (fetch : Nat → α) (succ fail : α → Bool)
    (interval maxWait : Int) (hint : 0 < interval) (hf : fail (fetch 0) = true) :
    await_condition fetch succ fail interval maxWait = .entityFailed (fetch 0) 1 0 ∧
    isPollTimeout (await_condition fetch succ fail interval maxWait) = false := by
  have h : await_condition fetch succ fail interval maxWait =
      .entityFailed (fetch 0) 1 0 := by
    unfold await_condition
    rw [if_neg (not_le.mpr hint)]
    simp [awaitAux, hf]
  exact ⟨h, by rw [h]; rfl⟩

/-- C3 witness: the §8 failure scenario — the first snapshot is `"error"` —
raises the entity-failed outcome at once with one fetch and no sleep. -/
theorem await_condition_entity_failed_witness :
    await_condition (fun _ => "error") (fun s => s == "ok") (fun s => s == "error")
      1 10 = .entityFailed "error" 1 0 ∧
    isPollTimeout (await_condition (fun _ => "error") (fun s => s == "ok")
      (fun s => s == "error") 1 10) = false :=
  await_condition_entity_failed (fun _ => "error") (fun s => s == "ok")
    (fun s => s == "error") 1 10 (by decide) (by decide)

/-- C4: a non-positive interval is rejected as a configuration error and the
poll records zero fetches; the conclusion holds for every fetch function, so
no fetch is consulted. -/
theorem await_condition_config_error {α : Type} (fetch : Nat → α) (succ fail : α → Bool)
    (interval maxWait : Int) (h : interval ≤ 0) :
    await_condition fetch succ fail interval maxWait = .configError ∧
    fetchCount (await_condition fetch succ fail interval maxWait) = 0 := by
  unfold await_condition
  rw [if_pos h]
  exact ⟨rfl, rfl⟩

/-- C4 witness: interval 0 yields the configuration error with zero fetches. -/
theorem await_condition_config_error_witness :
    await_condition (fun _ => (0 : Nat)) (fun _ => false) (fun _ => false) 0 5 =
      .configError ∧
    fetchCount (await_condition (fun _ => (0 : Nat)) (fun _ => false)
      (fun _ => false) 0 5) = 0 :=
  await_condition_config_error (fun _ => (0 : Nat)) (fun _ => false) (fun _ => false)
    0 5 (by decide)

/-- A transport-level error on the (k₀+1)-th fetch surfaces from the loop:
every earlier fetch succeeded without firing a predicate or exhausting the
budget, and the error is not handled anywhere in the loop body. -/
theorem awaitAuxE_error_eq {α ε : Type} (fetch : Nat → Except ε α) (succ fail : α → Bool)
    (interval maxWait : Int) (k₀ : Nat) (e : ε)
    (herr : fetch k₀ = .error e)
    (hok : ∀ i, i < k₀ → ∃ s, fetch i = .ok s ∧ fail s = false ∧ succ s = false ∧
      ((i : Int) + 1) * interval ≤ maxWait) :
    ∀ fuel j, j ≤ k₀ → k₀ + 1 ≤ fuel + j →
      awaitAuxE fetch succ fail interval maxWait fuel j = .error e := by
  intro fuel
  induction fuel with
  | zero => intro j h1 h2; omega
  | succ fuel ih =>
    intro j hj hle
    by_cases hjk : j = k₀
    · subst hjk
      simp [awaitAuxE, herr]
    · obtain ⟨s, hs, hfs, hss, hbud⟩ := hok j (by omega)
      rw [show awaitAuxE fetch succ fail interval maxWait (fuel + 1) j =
          awaitAuxE fetch succ fail interval maxWait fuel (j + 1) from by
        simp [awaitAuxE, hs, hfs, hss, not_lt.mpr hbud]]
      exact ih (j + 1) (by omega) (by omega)

/-- C8: when the status fetch itself raises a transport-level error on the
(k₀+1)-th call and every earlier call succeeded without ending the poll, the
poll propagates that error to the caller as is.  The fetch sequence is
arbitrary beyond index k₀, so nothing after the error is fetched, slept on,
or retried, and no poll outcome is substituted for the error. -/
theorem await_condition_propagates_fetch_error {α ε : Type} (fetch : Nat → Except ε α)
    (succ fail : α → Bool) (interval maxWait : Int) (k₀ : Nat) (e : ε)
    (hint : 0 < interval)
    (herr : fetch k₀ = .error e)
    (hok : ∀ i, i < k₀ → ∃ s, fetch i = .ok s ∧ fail s = false ∧ succ s = false ∧
      ((i : Int) + 1) * interval ≤ maxWait) :
    awaitConditionE fetch succ fail interval maxWait = .error e := by
  unfold awaitConditionE
  rw [if_neg (not_le.mpr hint)]
  apply awaitAuxE_error_eq fetch succ fail interval maxWait k₀ e herr hok
    (maxWait.toNat + 1) 0 (by omega)
  rcases Nat.eq_zero_or_pos k₀ with rfl | hpos
  · omega
  · obtain ⟨s, -, -, -, hbud⟩ := hok (k₀ - 1) (by omega)
    have h1 : ((k₀ - 1 : Nat) : Int) + 1 = (k₀ : Int) := by omega
    rw [h1] at hbud
    have h2 : (k₀ : Int) ≤ (k₀ : Int) * interval :=
      le_mul_of_one_le_right (by positivity) (by omega)
    have h3 : (k₀ : Int) ≤ maxWait := le_trans h2 hbud
    omega

/-- C8 witness: the second fetch fails at the transport level after a clean
pending first fetch; the poll returns exactly that error. -/
theorem await_condition_propagates_fetch_error_witness :
    awaitConditionE (fun i => if i == 0 then .ok "running" else .error "ConnectionError")
      (fun s => s == "ok") (fun s => s == "error") 1 10 = .error "ConnectionError" := by
  have h := await_condition_propagates_fetch_error
    (fun i => if i == 0 then .ok "running" else .error "ConnectionError")
    (fun s => s == "ok") (fun s => s == "error") 1 10 1 "ConnectionError"
    (by decide) rfl ?_
  · exact h
  · intro i hi
    have hi0 : i = 0 := by omega
    subst hi0
    exact ⟨"running", rfl, rfl, rfl, by decide⟩

/-- The `export_history` wait loop breaks exactly on the first status-200
response, having slept once after each earlier (non-200) response. -/
theorem exportPoll_eq (responses : Nat → ExportResponse) (k₀ : Nat)
    (h200 : (responses k₀).status_code = 200)
    (hbefore : ∀ i, i < k₀ → (responses i).status_code ≠ 200) :
    ∀ fuel j, j ≤ k₀ → k₀ + 1 ≤ fuel + j →
      exportPoll responses true fuel j = some (responses k₀, k₀ + 1, k₀) := by
  intro fuel
  induction fuel with
  | zero => intro j h1 h2; omega
  | succ fuel ih =>
    intro j hj hle
    by_cases hjk : j = k₀
    · subst hjk
      simp [exportPoll, h200]
    · have hne : (responses j).status_code ≠ 200 := hbefore j (by omega)
      rw [show exportPoll responses true (fuel + 1) j =
          exportPoll responses true fuel (j + 1) from by simp [exportPoll, hne]]
      exact ih (j + 1) (by omega) (by omega)

/-- C5: with `wait` set, `export_history` is driven purely by the HTTP status
code: it breaks exactly on the first 200 response after retrying (one sleep
each) every earlier response uniformly, whatever its code or body, with no
distinct failure outcome; the returned identifier is the last `/`-component
of the `download_url` of a non-empty 200 response, and an empty 200 response
yields the empty identifier. -/
theorem export_history_wait_spec (responses : Nat → ExportResponse) (k₀ fuel : Nat)
    (h200 : (responses k₀).status_code = 200)
    (hbefore : ∀ i, i < k₀ → (responses i).status_code ≠ 200)
    (hfuel : k₀ < fuel) :
    exportPoll responses true fuel 0 = some (responses k₀, k₀ + 1, k₀) ∧
    ((responses k₀).json = [] →
      export_history_wait responses true fuel = some (.ok "", k₀ + 1, k₀)) ∧
    (∀ u, List.lookup "download_url" (responses k₀).json = some u →
      (responses k₀).json ≠ [] →
      export_history_wait responses true fuel =
        some (.ok (rsplitSlashLast u), k₀ + 1, k₀)) := by
  have hpoll := exportPoll_eq responses k₀ h200 hbefore fuel 0 (by omega) (by omega)
  refine ⟨hpoll, ?_, ?_⟩
  · intro hjson
    unfold export_history_wait
    rw [hpoll]
    simp [jehaOf, hjson]
  · intro u hu hne
    unfold export_history_wait
    rw [hpoll]
    simp [jehaOf, List.isEmpty_iff, hne, hu]

/-- C5 witness: one pending 202 response then a 200 response whose
`download_url` ends in `jeha123`; the loop issues two requests, sleeps once,
and returns `jeha123`. -/
theorem export_history_wait_witness :
    export_history_wait
      (fun k => if k == 0 then ⟨202, []⟩ else ⟨200, [("download_url", "a/b/jeha123")]⟩)
      true 2 = some (.ok "jeha123", 2, 1) := by
  have h := export_history_wait_spec
    (fun k => if k == 0 then ⟨202, []⟩ else ⟨200, [("download_url", "a/b/jeha123")]⟩)
    1 2 (by decide) (by decide) (by decide)
  have h2 := h.2.2 "a/b/jeha123" (by decide) (by decide)
  exact h2

/-- C6: the dataset gate of `download_dataset` proceeds exactly when the
observed `state` is `"ok"` and raises `DatasetStateException` carrying the
state for every other value. -/
theorem download_dataset_state_gate (s : String) :
    (download_dataset_check s = .proceed ↔ s = "ok") ∧
    (s ≠ "ok" → download_dataset_check s = .stateException s) := by
  unfold download_dataset_check
  by_cases h : s = "ok"
  · subst h
    simp
  · have hb : (s == "ok") = false := by simp [h]
    simp [hb, h]

/-- C6 witness: the transitional state `"upload"` is still rejected with a
`DatasetStateException`, and `"ok"` alone proceeds. -/
theorem download_dataset_state_gate_witness :
    download_dataset_check "upload" = .stateException "upload" ∧
    download_dataset_check "ok" = .proceed :=
  ⟨(download_dataset_state_gate "upload").2 (by decide),
   (download_dataset_state_gate "ok").1.mpr rfl⟩

/-- C9: `get_histories` called with both `history_id` and `name` raises the
`ValueError` before anything else; the outcome is the same for every fetch
function and `deleted` flag, so no history list is requested. -/
theorem get_histories_both_error (fetch fetch' : Bool → List HistoryRecord)
    (hid nm : String) (d d' : Bool) :
    get_histories fetch (some hid) (some nm) d =
      .error "Provide only one argument between name or history_id, but not both" ∧
    get_histories fetch (some hid) (some nm) d =
      get_histories fetch' (some hid) (some nm) d' := by
  constructor <;> simp [get_histories]

/-- C9 witness: a concrete double-filtered call yields the `ValueError` and
ignores the fetched list. -/
theorem get_histories_both_error_witness :
    get_histories (fun _ => [⟨"h1", "n1"⟩]) (some "h1") (some "n1") false =
      .error "Provide only one argument between name or history_id, but not both" :=
  (get_histories_both_error (fun _ => [⟨"h1", "n1"⟩]) (fun _ => []) "h1" "n1"
    false true).1

/-- Membership in one conditional parameter insertion. -/
theorem mem_addIf (p : String × String) (c : Option Bool) (key : String)
    (rest : List (String × String)) :
    p ∈ addIf c key rest ↔ (truthy c = true ∧ p = (key, "True")) ∨ p ∈ rest := by
  unfold addIf
  by_cases h : truthy c = true
  · simp [h]
  · simp [h]

/-- C10: each filter of `repository_revisions` contributes its
`(name, "True")` query parameter exactly when the argument is truthy; the
parameter list depends on the arguments only through their truthiness, and
`False` and `None` have the same truthiness, so passing `False` produces a
request identical to passing `None` and filtering for a `False` value is
impossible. -/
theorem repository_revisions_filters
    (a1 a2 a3 a4 a5 a6 a7 a8 b1 b2 b3 b4 b5 b6 b7 b8 : Option Bool)
    (h1 : truthy a1 = truthy b1) (h2 : truthy a2 = truthy b2)
    (h3 : truthy a3 = truthy b3) (h4 : truthy a4 = truthy b4)
    (h5 : truthy a5 = truthy b5) (h6 : truthy a6 = truthy b6)
    (h7 : truthy a7 = truthy b7) (h8 : truthy a8 = truthy b8) :
    ((("downloadable", "True") ∈
        repository_revisions_params a1 a2 a3 a4 a5 a6 a7 a8) ↔ truthy a1 = true) ∧
    ((("malicious", "True") ∈
        repository_revisions_params a1 a2 a3 a4 a5 a6 a7 a8) ↔ truthy a2 = true) ∧
    ((("tools_functionally_correct", "True") ∈
        repository_revisions_params a1 a2 a3 a4 a5 a6 a7 a8) ↔ truthy a3 = true) ∧
    ((("missing_test_components", "True") ∈
        repository_revisions_params a1 a2 a3 a4 a5 a6 a7 a8) ↔ truthy a4 = true) ∧
    ((("do_not_test", "True") ∈
        repository_revisions_params a1 a2 a3 a4 a5 a6 a7 a8) ↔ truthy a5 = true) ∧
    ((("includes_tools", "True") ∈
        repository_revisions_params a1 a2 a3 a4 a5 a6 a7 a8) ↔ truthy a6 = true) ∧
    ((("test_install_error", "True") ∈
        repository_revisions_params a1 a2 a3 a4 a5 a6 a7 a8) ↔ truthy a7 = true) ∧
    ((("skip_tool_test", "True") ∈
        repository_revisions_params a1 a2 a3 a4 a5 a6 a7 a8) ↔ truthy a8 = true) ∧
    repository_revisions_params a1 a2 a3 a4 a5 a6 a7 a8 =
      repository_revisions_params b1 b2 b3 b4 b5 b6 b7 b8 ∧
    truthy (some false) = truthy none := by
  have hcong : repository_revisions_params a1 a2 a3 a4 a5 a6 a7 a8 =
      repository_revisions_params b1 b2 b3 b4 b5 b6 b7 b8 := by
    simp only [repository_revisions_params, addIf, h1, h2, h3, h4, h5, h6, h7, h8]
  refine ⟨?_, ?_, ?_, ?_, ?_, ?_, ?_, ?_, hcong, rfl⟩ <;>
    simp [repository_revisions_params, mem_addIf]

/-- C10 witness: all filters passed as `False` assemble exactly the same
(empty) parameter list as all filters passed as `None`. -/
theorem repository_revisions_filters_witness :
    repository_revisions_params (some false) (some false) (some false) (some false)
        (some false) (some false) (some false) (some false) =
      repository_revisions_params none none none none none none none none :=
  (repository_revisions_filters (some false) (some false) (some false) (some false)
    (some false) (some false) (some false) (some false)
    none none none none none none none none
    rfl rfl rfl rfl rfl rfl rfl rfl).2.2.2.2.2.2.2.2.1
